import Mathlib

/-!
Verification of the memory-context engine of the supermemory-assistant
backend (Flask + Supermemory store).  The Python sources under
`backend/` are shallowly embedded below: pure functions become Lean
functions, instants (`datetime` values) become microseconds since the
Unix epoch (`Int`), fallible code returns `Option`/`Except`, and the
external HTTP store appears only through the lists of documents it
returns, which the embedded read-path filters take as arguments.
-/

/-! ### Time model

Python `datetime` values carry microsecond precision.  An instant is
modelled as `Int` microseconds since 1970-01-01T00:00:00 UTC; the civil
(calendar) view is recovered with the standard days-from-civil /
civil-from-days algorithms, matching the proleptic Gregorian calendar
used by `datetime`. -/

def usecPerSecond : Int := 1000000

def usecPerMinute : Int := 60000000

def usecPerHour : Int := 3600000000

def usecPerDay : Int := 86400000000

def isLeapYear (y : Int) : Bool :=
  y % 4 == 0 && (y % 100 != 0 || y % 400 == 0)

def daysInMonth (y m : Int) : Int :=
  if m == 1 || m == 3 || m == 5 || m == 7 || m == 8 || m == 10 || m == 12 then 31
  else if m == 4 || m == 6 || m == 9 || m == 11 then 30
  else if isLeapYear y then 29 else 28

/-- Days since 1970-01-01 of the civil date `(y, m, d)` (proleptic
Gregorian, Howard Hinnant's algorithm). -/
def daysFromCivil (y m d : Int) : Int :=
  let yAdj := if m <= 2 then y - 1 else y
  let era := Int.fdiv yAdj 400
  let yoe := yAdj - era * 400
  let mp := if m > 2 then m - 3 else m + 9
  let doy := Int.fdiv (153 * mp + 2) 5 + d - 1
  let doe := yoe * 365 + Int.fdiv yoe 4 - Int.fdiv yoe 100 + doy
  era * 146097 + doe - 719468

/-- Civil date `(y, m, d)` of the day `z` days after 1970-01-01. -/
def civilFromDays (z : Int) : Int × Int × Int :=
  let z' := z + 719468
  let era := Int.fdiv z' 146097
  let doe := z' - era * 146097
  let yoe := Int.fdiv (doe - Int.fdiv doe 1460 + Int.fdiv doe 36524 - Int.fdiv doe 146096) 365
  let y := yoe + era * 400
  let doy := doe - (365 * yoe + Int.fdiv yoe 4 - Int.fdiv yoe 100)
  let mp := Int.fdiv (5 * doy + 2) 153
  let d := doy - Int.fdiv (153 * mp + 2) 5 + 1
  let m := if mp < 10 then mp + 3 else mp - 9
  (if m <= 2 then y + 1 else y, m, d)

/-- Validity of a civil date exactly as `datetime.datetime(y, m, d, ...)`
checks it (year 1..9999, month 1..12, day 1..length of month). -/
def validDate (y m d : Int) : Bool :=
  1 <= y && y <= 9999 && 1 <= m && m <= 12 && 1 <= d && d <= daysInMonth y m

/-- Microseconds since the epoch of the UTC instant `y-m-d hh:mi:00`. -/
def dtUsec (y m d hh mi : Int) : Int :=
  daysFromCivil y m d * usecPerDay + hh * usecPerHour + mi * usecPerMinute

/-- Model of the constructor `datetime(y, m, d, hh, mi, tzinfo=utc)`:
`none` when the constructor would raise `ValueError`. -/
def pyDatetime (y m d hh mi : Int) : Option Int :=
  if validDate y m d && 0 <= hh && hh <= 23 && 0 <= mi && mi <= 59 then
    some (dtUsec y m d hh mi)
  else none

/-! ### Python string helpers -/

/-- Python's `\s` / `str.split()` / `str.strip()` whitespace
(space, tab, newline, carriage return, vertical tab, form feed). -/
def isPySpace (c : Char) : Bool :=
  c == ' ' || c == '\t' || c == '\n' || c == '\r' || c == Char.ofNat 11 || c == Char.ofNat 12

/-- Python's `\w` word character, for `\b` boundaries (ASCII range; all
strings this system manipulates for date detection are ASCII). -/
def isWordChar (c : Char) : Bool :=
  c.isAlphanum || c == '_'

def digitVal (c : Char) : Int :=
  Int.ofNat (c.toNat - '0'.toNat)

/-- Model of `str.lower()` (ASCII case folding). -/
def pyLower (s : String) : String :=
  ⟨s.data.map Char.toLower⟩

def stripLeftChars (cs : List Char) : List Char :=
  cs.dropWhile isPySpace

/-- Model of `str.strip()`. -/
def pyStrip (s : String) : String :=
  ⟨((stripLeftChars s.data).reverse.dropWhile isPySpace).reverse⟩

/-- Model of Python string slicing `s[:n]` (by code point). -/
def strTake (n : Nat) (s : String) : String :=
  ⟨s.data.take n⟩

def startsWithChars : List Char → List Char → Bool
  | [], _ => true
  | _ :: _, [] => false
  | a :: as, b :: bs => a == b && startsWithChars as bs

def isSubstrChars (needle : List Char) : List Char → Bool
  | [] => startsWithChars needle []
  | c :: t => startsWithChars needle (c :: t) || isSubstrChars needle t

/-- Model of the Python membership test `needle in hay` on strings. -/
def pyIn (needle hay : String) : Bool :=
  isSubstrChars needle.data hay.data

/-- Suffix following the first occurrence of `needle` (empty when there
is none); together with `upToNextChars` this models `hay.split(needle)[1]`. -/
def dropThroughFirst (needle : List Char) : List Char → List Char
  | [] => []
  | c :: t =>
    if startsWithChars needle (c :: t) then (c :: t).drop needle.length
    else dropThroughFirst needle t

/-- Longest prefix not containing `needle`. -/
def upToNextChars (needle : List Char) : List Char → List Char
  | [] => []
  | c :: t =>
    if startsWithChars needle (c :: t) then []
    else c :: upToNextChars needle t

/-- Model of `str.split()` with no separator: split on runs of
whitespace, discarding empty pieces (`cur` accumulates the current word
in reverse). -/
def splitWSGo (cur : List Char) : List Char → List (List Char)
  | [] => if cur.isEmpty then [] else [cur.reverse]
  | c :: t =>
    if isPySpace c then
      if cur.isEmpty then splitWSGo [] t
      else cur.reverse :: splitWSGo [] t
    else splitWSGo (c :: cur) t

def pySplit (s : String) : List String :=
  (splitWSGo [] s.data).map (fun cs => ⟨cs⟩)

/-- Model of `s.replace('Z', '+00:00')` (applied before
`datetime.fromisoformat` throughout the backend). -/
def pyReplaceZChars : List Char → List Char
  | [] => []
  | c :: t =>
    if c == 'Z' then '+' :: '0' :: '0' :: ':' :: '0' :: '0' :: pyReplaceZChars t
    else c :: pyReplaceZChars t

def pyReplaceZ (s : String) : String :=
  ⟨pyReplaceZChars s.data⟩

/-! ### `datetime.fromisoformat` and `datetime.isoformat`

The backend always calls `datetime.fromisoformat(s.replace('Z', '+00:00'))`
on metadata timestamps.  The parser below models `fromisoformat` on the
extended ISO-8601 format this system produces and stores
(`YYYY-MM-DD[<sep>HH[:MM[:SS[.ffffff]]]][±HH:MM]`); exotic inputs the
backend never emits (week dates, ordinal dates, basic format) are out of
the model and map to `none`, exactly like any other parse failure
(`ValueError`). -/

/-- A parsed Python datetime: `civil` is the wall-clock part as
microseconds since the epoch read as UTC, `offset` is the UTC offset in
microseconds (`none` for a naive datetime). The instant an aware value
denotes is `civil - offset`. -/
structure PyDateTime where
  civil : Int
  offset : Option Int
deriving DecidableEq, Repr

def digits2 : List Char → Option (Int × List Char)
  | a :: b :: rest =>
    if a.isDigit && b.isDigit then some (10 * digitVal a + digitVal b, rest) else none
  | _ => none

def digits4 : List Char → Option (Int × List Char)
  | a :: b :: c :: d :: rest =>
    if a.isDigit && b.isDigit && c.isDigit && d.isDigit then
      some (1000 * digitVal a + 100 * digitVal b + 10 * digitVal c + digitVal d, rest)
    else none
  | _ => none

/-- Value in microseconds of a fractional-seconds digit string
(Python keeps the first six digits). -/
def fracUsec (ds : List Char) : Int :=
  let six := ds.take 6 ++ List.replicate (6 - min 6 ds.length) '0'
  six.foldl (fun a c => 10 * a + digitVal c) 0

/-- Parse `[.|,]ffff...` (optional fractional seconds). -/
def parseFrac : List Char → Option (Int × List Char)
  | [] => some (0, [])
  | c :: rest =>
    if c == '.' || c == ',' then
      let ds := rest.takeWhile Char.isDigit
      if ds.isEmpty then none
      else some (fracUsec ds, rest.dropWhile Char.isDigit)
    else some (0, c :: rest)

/-- Parse an optional trailing UTC offset `±HH[:MM|MM]` and require the
end of the string. -/
def parseOffsetEnd : List Char → Option (Option Int)
  | [] => some none
  | c :: rest =>
    if c == '+' || c == '-' then
      let sign : Int := if c == '+' then 1 else -1
      match digits2 rest with
      | none => none
      | some (hh, rest1) =>
        if hh > 23 then none else
        match rest1 with
        | [] => some (some (sign * hh * usecPerHour))
        | ':' :: rest2 =>
          match digits2 rest2 with
          | some (mm, []) =>
            if mm > 59 then none
            else some (some (sign * (hh * usecPerHour + mm * usecPerMinute)))
          | _ => none
        | _ =>
          match digits2 rest1 with
          | some (mm, []) =>
            if mm > 59 then none
            else some (some (sign * (hh * usecPerHour + mm * usecPerMinute)))
          | _ => none
    else none

/-- Parse the time-of-day part `HH[:MM[:SS[.ffffff]]]` followed by an
optional offset, returning microseconds-within-day and the offset. -/
def parseTimeEnd (cs : List Char) : Option (Int × Option Int) :=
  match digits2 cs with
  | none => none
  | some (hh, rest) =>
    if hh > 23 then none else
    let withMin : Option (Int × List Char) :=
      match rest with
      | ':' :: rest1 =>
        match digits2 rest1 with
        | none => none
        | some (mi, rest2) =>
          if mi > 59 then none else
          match rest2 with
          | ':' :: rest3 =>
            match digits2 rest3 with
            | none => none
            | some (ss, rest4) =>
              if ss > 59 then none else
              match parseFrac rest4 with
              | none => none
              | some (us, rest5) =>
                some (mi * usecPerMinute + ss * usecPerSecond + us, rest5)
          | _ => some (mi * usecPerMinute, rest2)
      | _ => some (0, rest)
    match withMin with
    | none => none
    | some (sub, restEnd) =>
      match parseOffsetEnd restEnd with
      | none => none
      | some off => some (hh * usecPerHour + sub, off)

/-- Model of `datetime.fromisoformat` on the format family described
above; `none` models `ValueError`. -/
def fromisoformatChars (cs : List Char) : Option PyDateTime :=
  match digits4 cs with
  | none => none
  | some (y, r1) =>
    match r1 with
    | '-' :: r2 =>
      match digits2 r2 with
      | none => none
      | some (m, r3) =>
        match r3 with
        | '-' :: r4 =>
          match digits2 r4 with
          | none => none
          | some (d, r5) =>
            if !validDate y m d then none else
            match r5 with
            | [] => some ⟨dtUsec y m d 0 0, none⟩
            | _sep :: timePart =>
              match parseTimeEnd timePart with
              | none => none
              | some (sub, off) => some ⟨daysFromCivil y m d * usecPerDay + sub, off⟩
        | _ => none
    | _ => none

def fromisoformat (s : String) : Option PyDateTime :=
  fromisoformatChars s.data

/-- Zero-padded decimal rendering of a nonnegative integer. -/
def padInt (w : Nat) (n : Int) : String :=
  let s := toString n.toNat
  ⟨List.replicate (w - s.length) '0'⟩ ++ s

/-- Model of `datetime.isoformat()` for a UTC-aware instant
(microsecond field printed only when nonzero, as in Python). -/
def pyIsoformat (t : Int) : String :=
  let days := Int.fdiv t usecPerDay
  let rem := t - days * usecPerDay
  let ymd := civilFromDays days
  let hh := Int.fdiv rem usecPerHour
  let rem2 := rem - hh * usecPerHour
  let mi := Int.fdiv rem2 usecPerMinute
  let rem3 := rem2 - mi * usecPerMinute
  let ss := Int.fdiv rem3 usecPerSecond
  let us := rem3 - ss * usecPerSecond
  padInt 4 ymd.1 ++ "-" ++ padInt 2 ymd.2.1 ++ "-" ++ padInt 2 ymd.2.2 ++ "T" ++
    padInt 2 hh ++ ":" ++ padInt 2 mi ++ ":" ++ padInt 2 ss ++
    (if us == 0 then "" else "." ++ padInt 6 us) ++ "+00:00"

/-! ### Memory documents and the read-path filters
(`backend/services/supermemory_client.py`)

The HTTP fetches are external; what the claims are about is the
post-processing the client applies to whatever list of documents the
store returned.  `search_memories` below is the filtering loop of
`search_memories` (lines 136-157), `get_recent_memories` the loop shared
by the primary endpoint and its fallback (lines 202-227 and 251-274). -/

/-- The reserved metadata keys the core owns (spec section 6); each field is
`none` when the key is absent or null in the JSON document. -/
structure MemMeta where
  mode : Option String
  base_role : Option String
  source : Option String
  userId : Option String
  createdAt : Option String
  durability : Option String
  expires_at : Option String
  type : Option String
  event_date : Option String
deriving DecidableEq, Repr

def emptyMeta : MemMeta :=
  ⟨none, none, none, none, none, none, none, none, none⟩

/-- A document as returned by the external store: `text`/`content` model
the presence of the corresponding keys. -/
structure Mem where
  id : String
  text : Option String
  content : Option String
  metadata : MemMeta
deriving DecidableEq, Repr

/-- The aware instant an `expires_at` string denotes, when it denotes
one: `none` models both a `fromisoformat` `ValueError` and a naive
result (whose comparison against the aware `now` raises `TypeError`);
both exceptions are swallowed by the bare `except` in the read paths. -/
def expiryInstant : Option String → Option Int
  | none => none
  | some s =>
    match fromisoformat (pyReplaceZ s) with
    | some dt =>
      match dt.offset with
      | some off => some (dt.civil - off)
      | none => none
    | none => none

/-- Net effect of the expiry try-block: a memory is skipped iff its
`expires_at` parses to an aware instant strictly before `now`. -/
def expirySkip (now : Int) (e : Option String) : Bool :=
  match expiryInstant e with
  | some t => decide (t < now)
  | none => false

/-- Strict mode separation check (only applied when a role is given):
`metadata.mode` must equal the requested role exactly. -/
def modeKeep (role : Option String) (md : MemMeta) : Bool :=
  match role with
  | none => true
  | some r => md.mode == some r

def memKeep (role : Option String) (now : Int) (mem : Mem) : Bool :=
  modeKeep role mem.metadata && !expirySkip now mem.metadata.expires_at

/-- Post-processing of `search_memories` applied to the store's
response list `results`. -/
def search_memories (role : Option String) (now : Int) (results : List Mem) : List Mem :=
  results.filter (memKeep role now)

/-- Response normalization in `get_recent_memories`: copy `content`
into `text` when `text` is absent. -/
def normalizeMem (mem : Mem) : Mem :=
  if mem.content.isSome && mem.text.isNone then ⟨mem.id, mem.content, mem.content, mem.metadata⟩
  else mem

/-- Filter-and-normalize stage of `get_recent_memories` (identical in
the primary path and the fallback path). -/
def get_recent_stage (role : Option String) (now : Int) (memories : List Mem) : List Mem :=
  (memories.filter (memKeep role now)).map normalizeMem

/-- Full post-processing of `get_recent_memories`: the filtered list is
additionally truncated to `limit`. -/
def get_recent_memories (role : Option String) (now : Int) (limit : Nat)
    (memories : List Mem) : List Mem :=
  (get_recent_stage role now memories).take limit

theorem normalizeMem_metadata (mem : Mem) : (normalizeMem mem).metadata = mem.metadata := by
  unfold normalizeMem
  split <;> rfl

theorem mem_get_recent_stage {role : Option String} {now : Int} {memories : List Mem}
    {mem : Mem} (h : mem ∈ get_recent_stage role now memories) :
    ∃ pre, pre ∈ memories ∧ memKeep role now pre = true ∧ normalizeMem pre = mem := by
  unfold get_recent_stage at h
  obtain ⟨pre, hpre, hnorm⟩ := List.mem_map.mp h
  obtain ⟨hmem, hkeep⟩ := List.mem_filter.mp hpre
  exact ⟨pre, hmem, hkeep, hnorm⟩

/-- C1.  Mode isolation: for every pair of distinct mode keys `m1 ≠ m2`,
a memory whose `metadata.mode` is `m1` is never contained in the result
of `search_memories` or `get_recent_memories` called with role `m2`,
whatever the store returned (and hence regardless of the memory's
container tags, which the filters never consult). -/
theorem c1_mode_isolation (m1 m2 : String) (now : Int) (results : List Mem) (limit : Nat)
    (mem : Mem) (hne : m1 ≠ m2) (hmode : mem.metadata.mode = some m1) :
    mem ∉ search_memories (some m2) now results ∧
    mem ∉ get_recent_memories (some m2) now limit results := by
  have hself : modeKeep (some m2) mem.metadata = false := by
    simp [modeKeep, hmode]
    exact fun h => hne h
  constructor
  · intro hmem
    have hk := (List.mem_filter.mp hmem).2
    rw [memKeep, hself] at hk
    simp at hk
  · intro hmem
    have hstage : mem ∈ get_recent_stage (some m2) now results :=
      (List.take_sublist _ _).subset hmem
    obtain ⟨pre, _, hkeep, hnorm⟩ := mem_get_recent_stage hstage
    have hpremode : pre.metadata.mode = some m1 := by
      rw [← normalizeMem_metadata pre, hnorm]
      exact hmode
    have hpre : modeKeep (some m2) pre.metadata = false := by
      simp [modeKeep, hpremode]
      exact fun h => hne h
    rw [memKeep, hpre] at hkeep
    simp at hkeep

def memJobC1 : Mem :=
  ⟨"m1", some "job memory", none,
    ⟨some "job", none, none, none, none, none, none, none, none⟩⟩

theorem c1_mode_isolation_witness :
    memJobC1 ∉ search_memories (some "student") 0 [memJobC1] ∧
    memJobC1 ∉ get_recent_memories (some "student") 0 5 [memJobC1] :=
  c1_mode_isolation "job" "student" 0 [memJobC1] 5 memJobC1 (by decide) rfl

/-- C2.  Expiry is a read-time filter.  (a) No memory whose `expires_at`
denotes an instant strictly before `now` appears in the output of
`search_memories` or `get_recent_memories`; (b) a memory that passes the
mode check and whose `expires_at` is absent or denotes an instant
strictly after `now` is not removed by the expiry filter of either read
path. -/
theorem c2_expiry_read_filter (role : Option String) (now : Int) (results : List Mem)
    (limit : Nat) :
    (∀ mem ∈ search_memories role now results,
      ∀ t, expiryInstant mem.metadata.expires_at = some t → ¬ t < now) ∧
    (∀ mem ∈ get_recent_memories role now limit results,
      ∀ t, expiryInstant mem.metadata.expires_at = some t → ¬ t < now) ∧
    (∀ mem ∈ results, modeKeep role mem.metadata = true →
      (mem.metadata.expires_at = none ∨
        (∃ t, expiryInstant mem.metadata.expires_at = some t ∧ now < t)) →
      mem ∈ search_memories role now results) ∧
    (∀ mem ∈ results, modeKeep role mem.metadata = true →
      (mem.metadata.expires_at = none ∨
        (∃ t, expiryInstant mem.metadata.expires_at = some t ∧ now < t)) →
      normalizeMem mem ∈ get_recent_stage role now results) := by
  have hskip : ∀ mem : Mem,
      (mem.metadata.expires_at = none ∨
        (∃ t, expiryInstant mem.metadata.expires_at = some t ∧ now < t)) →
      expirySkip now mem.metadata.expires_at = false := by
    intro mem h
    rcases h with h | ⟨t, ht, hlt⟩
    · have hinst : expiryInstant mem.metadata.expires_at = none := by
        rw [h]
        rfl
      rw [expirySkip, hinst]
    · rw [expirySkip, ht]
      simp
      omega
  have hnotskip : ∀ (e : Option String) (t : Int),
      expiryInstant e = some t → expirySkip now e = true → t < now := by
    intro e t ht hs
    rw [expirySkip, ht] at hs
    simpa using hs
  refine ⟨?_, ?_, ?_, ?_⟩
  · intro mem hmem t ht hlt
    have hk := (List.mem_filter.mp hmem).2
    simp only [memKeep, Bool.and_eq_true, Bool.not_eq_true'] at hk
    rw [expirySkip, ht] at hk
    simp at hk
    omega
  · intro mem hmem t ht hlt
    have hstage : mem ∈ get_recent_stage role now results :=
      (List.take_sublist _ _).subset hmem
    obtain ⟨pre, _, hkeep, hnorm⟩ := mem_get_recent_stage hstage
    have hpre : expiryInstant pre.metadata.expires_at = some t := by
      rw [← hnorm, normalizeMem_metadata] at ht
      exact ht
    simp only [memKeep, Bool.and_eq_true, Bool.not_eq_true'] at hkeep
    rw [expirySkip, hpre] at hkeep
    simp at hkeep
    omega
  · intro mem hmem hmode hfresh
    refine List.mem_filter.mpr ⟨hmem, ?_⟩
    rw [memKeep, hmode, hskip mem hfresh]
    rfl
  · intro mem hmem hmode hfresh
    refine List.mem_map.mpr ⟨mem, List.mem_filter.mpr ⟨hmem, ?_⟩, rfl⟩
    rw [memKeep, hmode, hskip mem hfresh]
    rfl

def memPastC2 : Mem :=
  ⟨"m-past", some "old", none,
    ⟨none, none, none, none, none, none, some "2020-01-01T00:00:00Z", none, none⟩⟩

def memFutureC2 : Mem :=
  ⟨"m-future", some "fresh", none,
    ⟨none, none, none, none, none, none, some "2999-01-01T00:00:00+00:00", none, none⟩⟩

theorem c2_expiry_read_filter_witness :
    ¬ dtUsec 2999 1 1 0 0 < dtUsec 2026 1 1 0 0 ∧
    memFutureC2 ∈ search_memories none (dtUsec 2026 1 1 0 0) [memPastC2, memFutureC2] := by
  have h := c2_expiry_read_filter none (dtUsec 2026 1 1 0 0) [memPastC2, memFutureC2] 5
  have hin : memFutureC2 ∈ search_memories none (dtUsec 2026 1 1 0 0) [memPastC2, memFutureC2] :=
    h.2.2.1 memFutureC2 (by decide) rfl
      (Or.inr ⟨dtUsec 2999 1 1 0 0, by decide, by decide⟩)
  exact ⟨h.1 memFutureC2 hin (dtUsec 2999 1 1 0 0) (by decide), hin⟩

/-- C10.  An `expires_at` that is present but unparseable
(`fromisoformat` raises `ValueError`) never excludes a memory: provided
the memory passes the strict mode check, both read paths keep it — the
exception is swallowed and the entry is appended, not dropped and not
turned into an error. -/
theorem c10_unparseable_expiry (role : Option String) (now : Int) (results : List Mem)
    (mem : Mem) (s : String) (hmem : mem ∈ results)
    (hmode : modeKeep role mem.metadata = true)
    (hexp : mem.metadata.expires_at = some s)
    (hbad : fromisoformat (pyReplaceZ s) = none) :
    mem ∈ search_memories role now results ∧
    normalizeMem mem ∈ get_recent_stage role now results := by
  have hskip : expirySkip now mem.metadata.expires_at = false := by
    have hinst : expiryInstant mem.metadata.expires_at = none := by
      rw [hexp]
      simp [expiryInstant, hbad]
    rw [expirySkip, hinst]
  constructor
  · refine List.mem_filter.mpr ⟨hmem, ?_⟩
    rw [memKeep, hmode, hskip]
    rfl
  · refine List.mem_map.mpr ⟨mem, List.mem_filter.mpr ⟨hmem, ?_⟩, rfl⟩
    rw [memKeep, hmode, hskip]
    rfl

def memBadExpiryC10 : Mem :=
  ⟨"m-bad", some "note", none,
    ⟨some "student", none, none, none, none, none, some "soon", none, none⟩⟩

theorem c10_unparseable_expiry_witness :
    memBadExpiryC10 ∈ search_memories (some "student") 0 [memBadExpiryC10] ∧
    normalizeMem memBadExpiryC10 ∈ get_recent_stage (some "student") 0 [memBadExpiryC10] :=
  c10_unparseable_expiry (some "student") 0 [memBadExpiryC10] memBadExpiryC10 "soon"
    (by decide) (by decide) rfl rfl

/-! ### Date extraction (`backend/services/memory_classifier.py`)

`_try_parse_event_date` applies, in order: an ISO-date regex, a
"Month Day[, Year]" regex, a "Day Month[, Year]" regex, a "next month"
block, then the substring tests "tomorrow" / "next week".  The scanners
below implement `re.search` for exactly those patterns: leftmost match,
greedy quantifiers with backtracking, `\b` word boundaries, ASCII
classes.  Each scanner walks every start position carrying whether the
previous character is a word character. -/

def boundaryOk : List Char → Bool
  | [] => true
  | c :: _ => !isWordChar c

/-- Ordinal suffixes `st|nd|rd|th` (the patterns are case sensitive). -/
def isOrdinalPair (c1 c2 : Char) : Bool :=
  (c1 == 's' && c2 == 't') || (c1 == 'n' && c2 == 'd') ||
  (c1 == 'r' && c2 == 'd') || (c1 == 't' && c2 == 'h')

/-- Day part `\d{1,2}\b` of the ISO pattern (greedy, two digits first). -/
def isoDay : List Char → Option Int
  | d1 :: d2 :: rest =>
    if d1.isDigit && d2.isDigit then
      if boundaryOk rest then some (10 * digitVal d1 + digitVal d2) else none
    else if d1.isDigit && !isWordChar d2 then some (digitVal d1)
    else none
  | [d1] => if d1.isDigit then some (digitVal d1) else none
  | [] => none

/-- Month-and-day tail `\d{1,2}-\d{1,2}\b` of the ISO pattern. -/
def isoMonthDay : List Char → Option (Int × Int)
  | m1 :: '-' :: rest =>
    if m1.isDigit then (isoDay rest).map (fun d => (digitVal m1, d)) else none
  | m1 :: m2 :: '-' :: rest =>
    if m1.isDigit && m2.isDigit then
      (isoDay rest).map (fun d => (10 * digitVal m1 + digitVal m2, d))
    else none
  | _ => none

/-- One attempt of `\b(20\d{2})-(\d{1,2})-(\d{1,2})\b` at the current
position (`prevWord` records whether the previous character is a word
character, for the leading `\b`). -/
def isoTryAt (prevWord : Bool) : List Char → Option (Int × Int × Int)
  | '2' :: '0' :: a :: b :: '-' :: rest =>
    if !prevWord && a.isDigit && b.isDigit then
      (isoMonthDay rest).map (fun md => (2000 + 10 * digitVal a + digitVal b, md.1, md.2))
    else none
  | _ => none

def isoScanGo (prevWord : Bool) : List Char → Option (Int × Int × Int)
  | [] => none
  | c :: t =>
    match isoTryAt prevWord (c :: t) with
    | some r => some r
    | none => isoScanGo (isWordChar c) t

/-- Model of `re.search(r'\b(20\d{2})-(\d{1,2})-(\d{1,2})\b', s)`. -/
def isoScan (cs : List Char) : Option (Int × Int × Int) :=
  isoScanGo false cs

/-- Optional year group `(?:,?\s*(20\d{2}))` followed by the final `\b`. -/
def tryYearGroup (cs : List Char) : Option Int :=
  let cs1 := match cs with
    | ',' :: t => t
    | _ => cs
  let cs2 := cs1.dropWhile isPySpace
  match cs2 with
  | '2' :: '0' :: a :: b :: rest =>
    if a.isDigit && b.isDigit && boundaryOk rest then
      some (2000 + 10 * digitVal a + digitVal b)
    else none
  | _ => none

/-- Tail after the day of the Month-Day pattern: optional ordinal,
optional year group, final `\b` (ordinal tried greedily first). -/
def mdAfterDay (day : Int) (cs : List Char) : Option (Int × Option Int) :=
  let tryTail : List Char → Option (Int × Option Int) := fun t =>
    match tryYearGroup t with
    | some y => some (day, some y)
    | none => if boundaryOk t then some (day, none) else none
  match cs with
  | c1 :: c2 :: rest =>
    if isOrdinalPair c1 c2 then
      match tryTail rest with
      | some r => some r
      | none => tryTail (c1 :: c2 :: rest)
    else tryTail (c1 :: c2 :: rest)
  | _ => tryTail cs

/-- Day, ordinal, year and boundary of the Month-Day pattern
(`(\d{1,2})(?:st|nd|rd|th)?(?:,?\s*(20\d{2}))?\b`), with the greedy
two-digit day tried before the one-digit day. -/
def mdDayOrdYear : List Char → Option (Int × Option Int)
  | [] => none
  | d1 :: r1 =>
    if d1.isDigit then
      let try2 : Option (Int × Option Int) :=
        match r1 with
        | d2 :: r2 =>
          if d2.isDigit then mdAfterDay (10 * digitVal d1 + digitVal d2) r2 else none
        | [] => none
      match try2 with
      | some r => some r
      | none => mdAfterDay (digitVal d1) r1
    else none

/-- One attempt of
`\b([A-Za-z]{3,9})\s+(\d{1,2})(?:st|nd|rd|th)?(?:,?\s*(20\d{2}))?\b`
at the current position.  The name is the maximal alphabetic run (a
shorter greedy choice is always followed by a letter, on which `\s+`
fails), so a run outside 3..9 letters fails the position. -/
def p2TryAt (prevWord : Bool) (cs : List Char) : Option (List Char × Int × Option Int) :=
  if prevWord then none
  else
    let run := cs.takeWhile Char.isAlpha
    if run.length < 3 || 9 < run.length then none
    else
      let rest := cs.dropWhile Char.isAlpha
      if (rest.takeWhile isPySpace).isEmpty then none
      else
        (mdDayOrdYear (rest.dropWhile isPySpace)).map (fun dy => (run, dy.1, dy.2))

def p2ScanGo (prevWord : Bool) : List Char → Option (List Char × Int × Option Int)
  | [] => none
  | c :: t =>
    match p2TryAt prevWord (c :: t) with
    | some r => some r
    | none => p2ScanGo (isWordChar c) t

/-- Model of the "Month Day[, Year]" search. -/
def p2Scan (cs : List Char) : Option (List Char × Int × Option Int) :=
  p2ScanGo false cs

/-- Month name and year tail of the Day-Month pattern
(`([A-Za-z]{3,9})(?:,?\s*(20\d{2}))?\b` after the whitespace). -/
def p3MonYear (t : List Char) : Option (List Char × Option Int) :=
  let run := t.takeWhile Char.isAlpha
  if run.length < 3 || 9 < run.length then none
  else
    let t2 := t.dropWhile Char.isAlpha
    match tryYearGroup t2 with
    | some y => some (run, some y)
    | none => if boundaryOk t2 then some (run, none) else none

/-- Tail after the day of the Day-Month pattern: optional ordinal, then
required whitespace, then month name. -/
def p3AfterDay (day : Int) (cs : List Char) : Option (Int × List Char × Option Int) :=
  let cont : List Char → Option (Int × List Char × Option Int) := fun t =>
    if (t.takeWhile isPySpace).isEmpty then none
    else
      (p3MonYear (t.dropWhile isPySpace)).map (fun my => (day, my.1, my.2))
  match cs with
  | c1 :: c2 :: rest =>
    if isOrdinalPair c1 c2 then
      match cont rest with
      | some r => some r
      | none => cont (c1 :: c2 :: rest)
    else cont (c1 :: c2 :: rest)
  | _ => cont cs

/-- One attempt of
`\b(\d{1,2})(?:st|nd|rd|th)?\s+([A-Za-z]{3,9})(?:,?\s*(20\d{2}))?\b`. -/
def p3TryAt (prevWord : Bool) : List Char → Option (Int × List Char × Option Int)
  | [] => none
  | d1 :: r1 =>
    if prevWord || !d1.isDigit then none
    else
      let try2 : Option (Int × List Char × Option Int) :=
        match r1 with
        | d2 :: r2 =>
          if d2.isDigit then p3AfterDay (10 * digitVal d1 + digitVal d2) r2 else none
        | [] => none
      match try2 with
      | some r => some r
      | none => p3AfterDay (digitVal d1) r1

def p3ScanGo (prevWord : Bool) : List Char → Option (Int × List Char × Option Int)
  | [] => none
  | c :: t =>
    match p3TryAt prevWord (c :: t) with
    | some r => some r
    | none => p3ScanGo (isWordChar c) t

/-- Model of the "Day Month[, Year]" search. -/
def p3Scan (cs : List Char) : Option (Int × List Char × Option Int) :=
  p3ScanGo false cs

/-- The `MONTHS` table of the classifier. -/
def MONTHS : List (List Char × Int) :=
  [("jan".data, 1), ("january".data, 1), ("feb".data, 2), ("february".data, 2),
   ("mar".data, 3), ("march".data, 3), ("apr".data, 4), ("april".data, 4),
   ("may".data, 5), ("jun".data, 6), ("june".data, 6), ("jul".data, 7),
   ("july".data, 7), ("aug".data, 8), ("august".data, 8), ("sep".data, 9),
   ("september".data, 9), ("oct".data, 10), ("october".data, 10),
   ("nov".data, 11), ("november".data, 11), ("dec".data, 12), ("december".data, 12)]

def monthsLookup (name : List Char) : Option Int :=
  (MONTHS.find? (fun p => p.1 == name)).map (fun p => p.2)

def nowYearOf (now : Int) : Int :=
  (civilFromDays (Int.fdiv now usecPerDay)).1

/-- Shared resolution of the Month-Day / Day-Month matches (lines 43-56
and 60-73): look the name up in `MONTHS`, default a missing year to the
current year, and roll a yearless date that already passed forward one
year; any `ValueError` is swallowed and resolution falls through. -/
def mdResolve (now : Int) : Option (List Char × Int × Option Int) → Option Int
  | none => none
  | some (monName, day, yearOpt) =>
    match monthsLookup (monName.map Char.toLower) with
    | none => none
    | some mon =>
      let year := match yearOpt with
        | some y => y
        | none => nowYearOf now
      match pyDatetime year mon day 9 0 with
      | none => none
      | some dt =>
        if yearOpt.isNone && dt < now then
          match pyDatetime (year + 1) mon day 9 0 with
          | some dt2 => some dt2
          | none => none
        else some dt

/-- Tail of the `next month` regex after a required whitespace run:
optional `(\d{1,2})(?:st|nd|rd|th)?\s+` group, required ordinal/day
whitespace inside it. -/
def nmGroupATail (day : Int) (cs : List Char) : Option (Int × List Char) :=
  let req : List Char → Option (Int × List Char) := fun u =>
    if (u.takeWhile isPySpace).isEmpty then none else some (day, u.dropWhile isPySpace)
  match cs with
  | c1 :: c2 :: rest =>
    if isOrdinalPair c1 c2 then
      match req rest with
      | some r => some r
      | none => req (c1 :: c2 :: rest)
    else req (c1 :: c2 :: rest)
  | _ => req cs

/-- Month-name letters of the `next month` regex: greedy 3..9 letters,
with no trailing boundary requirement. -/
def nmLettersAt (u : List Char) : Option (List Char × List Char) :=
  let run := u.takeWhile Char.isAlpha
  if run.length < 3 then none
  else some (run.take 9, u.drop (min 9 run.length))

/-- Optional trailing `\s+(\d{1,2})(?:st|nd|rd|th)?` group. -/
def nmGroupB (u : List Char) : Option Int :=
  if (u.takeWhile isPySpace).isEmpty then none
  else
    match u.dropWhile isPySpace with
    | d1 :: r1 =>
      if d1.isDigit then
        match r1 with
        | d2 :: _ => if d2.isDigit then some (10 * digitVal d1 + digitVal d2) else some (digitVal d1)
        | [] => some (digitVal d1)
      else none
    | [] => none

/-- Attempt of the `next month ...` regex tail right after the literal. -/
def nmTail (cs : List Char) : Option (Option Int × List Char × Option Int) :=
  if (cs.takeWhile isPySpace).isEmpty then none
  else
    let t := cs.dropWhile isPySpace
    let afterA : Option (Int × List Char) :=
      match t with
      | d1 :: r1 =>
        if d1.isDigit then
          let try2 : Option (Int × List Char) :=
            match r1 with
            | d2 :: r2 =>
              if d2.isDigit then nmGroupATail (10 * digitVal d1 + digitVal d2) r2 else none
            | [] => none
          match try2 with
          | some r => some r
          | none => nmGroupATail (digitVal d1) r1
        else none
      | [] => none
    match afterA with
    | some (dayA, restA) =>
      match nmLettersAt restA with
      | some (mon, restL) => some (some dayA, mon, nmGroupB restL)
      | none =>
        match nmLettersAt t with
        | some (mon, restL) => some (none, mon, nmGroupB restL)
        | none => none
    | none =>
      match nmLettersAt t with
      | some (mon, restL) => some (none, mon, nmGroupB restL)
      | none => none

def nmScanGo : List Char → Option (Option Int × List Char × Option Int)
  | [] => none
  | c :: t =>
    if startsWithChars "next month".data (c :: t) then
      match nmTail ((c :: t).drop 10) with
      | some r => some r
      | none => nmScanGo t
    else nmScanGo t

/-- Model of the `next month` regex search on the lowered text. -/
def nmScan (csLower : List Char) : Option (Option Int × List Char × Option Int) :=
  nmScanGo csLower

/-- The `next month` block (lines 78-105).  The final same-day-next-month
fallback is OUTSIDE any try/except: when `datetime` rejects the shifted
date (e.g. Jan 31 -> Feb 31) the `ValueError` escapes `_try_parse_event_date`,
modelled as `.error ()`. -/
def nextMonthStage (now : Int) (csLower : List Char) : Except Unit (Option Int) :=
  let nowDays := Int.fdiv now usecPerDay
  let ymd := civilFromDays nowDays
  let fallback : Except Unit (Option Int) :=
    if ymd.2.1 == 12 then
      match pyDatetime (ymd.1 + 1) 1 ymd.2.2 9 0 with
      | some dt => .ok (some dt)
      | none => .error ()
    else
      match pyDatetime ymd.1 (ymd.2.1 + 1) ymd.2.2 9 0 with
      | some dt => .ok (some dt)
      | none => .error ()
  match nmScan csLower with
  | some (dayA, monChars, dayB) =>
    match dayA.orElse (fun _ => dayB), monthsLookup (monChars.map Char.toLower) with
    | some day, some mon =>
      match pyDatetime ymd.1 mon day 9 0 with
      | some dt =>
        if dt < now then
          match pyDatetime (ymd.1 + 1) mon day 9 0 with
          | some dt2 => .ok (some dt2)
          | none => fallback
        else .ok (some dt)
      | none => fallback
    | _, _ => fallback
  | none => fallback

/-- Model of `_try_parse_event_date(now, content)`: `.ok (some t)` is a
returned `dt.isoformat()` string denoting the aware UTC instant `t`,
`.ok none` is `return None`, `.error ()` is an escaping `ValueError`. -/
def tryParseEventDate (now : Int) (content : String) : Except Unit (Option Int) :=
  let s := pyStrip content
  let cs := s.data
  let csLower := cs.map Char.toLower
  if cs.isEmpty then .ok none
  else
    let iso : Option Int :=
      match isoScan cs with
      | some ymd => pyDatetime ymd.1 ymd.2.1 ymd.2.2 9 0
      | none => none
    match iso with
    | some dt => .ok (some dt)
    | none =>
      match mdResolve now (p2Scan cs) with
      | some dt => .ok (some dt)
      | none =>
        match mdResolve now ((p3Scan cs).map (fun r => (r.2.1, r.1, r.2.2))) with
        | some dt => .ok (some dt)
        | none =>
          if isSubstrChars "next month".data csLower then nextMonthStage now csLower
          else if isSubstrChars "tomorrow".data csLower then .ok (some (now + usecPerDay))
          else if isSubstrChars "next week".data csLower then .ok (some (now + 7 * usecPerDay))
          else .ok none

/-! ### Memory classification (`classify_memory`, lines 114-207) -/

def event_keywords : List String :=
  ["exam", "midterm", "final", "test", "interview", "meeting", "appointment",
   "deadline", "call", "session", "birthday", "party", "celebration", "wedding",
   "anniversary", "event", "play", "show", "concert", "trip"]

def parent_event_keywords : List String :=
  ["birthday", "party", "celebration", "school event", "parent-teacher",
   "field trip", "play", "show"]

def parent_ephemeral_keywords : List String :=
  ["fridge", "grocery", "shopping list", "buy"]

def student_exam_keywords : List String :=
  ["exam", "midterm", "final", "test"]

def student_homework_keywords : List String :=
  ["homework", "assignment", "due"]

def job_applied_keywords : List String :=
  ["applied to", "application", "interview", "rejected", "offer"]

def job_networking_keywords : List String :=
  ["networking", "coffee chat", "meeting"]

def kwAny (kws : List String) (hay : String) : Bool :=
  kws.any (fun k => pyIn k hay)

/-- The optional `context` dict of `classify_memory`; only its
`exam_date` key is read.  `none` for the whole record also covers the
falsy empty dict. -/
structure CtxRec where
  exam_date : Option String
deriving DecidableEq, Repr

/-- A classification result.  `expires_at`/`event_date` are the aware
UTC instants the returned ISO strings denote; `type` is `none` when the
key is absent from the returned dict. -/
structure Classification where
  durability : String
  expires_at : Option Int
  type : Option String
  event_date : Option Int
deriving DecidableEq, Repr

/-- Student / job / default rule chain of `classify_memory` (run when
the parent rules did not fire; the `role ==` guards make the blocks
mutually exclusive in the source's sequential `if`s). -/
def classifyTail (role content_lower : String) (context : Option CtxRec) (now : Int)
    (event_date : Option Int) : Classification :=
  let is_eventish := kwAny event_keywords content_lower && event_date.isSome
  let defaultOut : Classification :=
    ⟨"medium", some (now + 90 * usecPerDay),
     if is_eventish then some "event" else none,
     if is_eventish then event_date else none⟩
  let jobOut : Classification :=
    if role == "job" then
      if kwAny job_applied_keywords content_lower then
        ⟨"long", none,
         if pyIn "interview" content_lower && event_date.isSome then some "event" else none,
         if pyIn "interview" content_lower && event_date.isSome then event_date else none⟩
      else if kwAny job_networking_keywords content_lower then
        ⟨"medium", some (now + 60 * usecPerDay),
         if event_date.isSome then some "event" else none,
         if event_date.isSome then event_date else none⟩
      else defaultOut
    else defaultOut
  if role == "student" then
    if kwAny student_exam_keywords content_lower then
      let examGeneric : Classification :=
        ⟨"medium", some (now + 30 * usecPerDay),
         if event_date.isSome then some "event" else none,
         if event_date.isSome then event_date else none⟩
      match context with
      | some c =>
        match c.exam_date with
        | some sd =>
          if sd == "" then examGeneric
          else
            match fromisoformat sd with
            | some dt => ⟨"medium", some (dt.civil + 7 * usecPerDay), none, none⟩
            | none => examGeneric
        | none => examGeneric
      | none => examGeneric
    else if kwAny student_homework_keywords content_lower then
      ⟨"ephemeral", some (now + 14 * usecPerDay), none, none⟩
    else jobOut
  else jobOut

/-- Parent rules (lines 129-146); `tail` is the continuation shared with
the other roles.  The `expires_at` of a parent event re-parses the
event's own isoformat string, an identity roundtrip modelled as
`d + usecPerDay`. -/
def classifyParent (content_lower : String) (now : Int) (parent_event_date : Option Int)
    (tail : Classification) : Classification :=
  if kwAny parent_event_keywords content_lower && parent_event_date.isSome then
    ⟨"medium",
     (match parent_event_date with
      | some d => some (d + usecPerDay)
      | none => some (now + 30 * usecPerDay)),
     some "event", parent_event_date⟩
  else if kwAny parent_ephemeral_keywords content_lower then
    ⟨"ephemeral", some (now + 7 * usecPerDay), none, none⟩
  else tail

/-- Model of `classify_memory(role, content, context)` with the call
time `now` explicit; a `.error ()` is a `ValueError` escaping from
`_try_parse_event_date` (reachable through its `next month` fallback). -/
def classify_memory (role content : String) (context : Option CtxRec) (now : Int) :
    Except Unit Classification :=
  let content_lower := pyLower content
  match tryParseEventDate now content with
  | .error e => .error e
  | .ok event_date =>
    if role == "parent" then
      match tryParseEventDate now content with
      | .error e => .error e
      | .ok parent_event_date =>
        .ok (classifyParent content_lower now parent_event_date
          (classifyTail role content_lower context now event_date))
    else .ok (classifyTail role content_lower context now event_date)

/-- C5.  `classify("student", "Midterm exam on 2026-03-05")` always
returns an event classification with durability `"medium"` and
`event_date` denoting 2026-03-05T09:00:00Z, for every call time `now`
(the explicit-year ISO path never rolls the year forward, so the first
disjunct of the claim holds unconditionally); the second conjunct ties
the modelled instant to the claim's literal timestamp. -/
theorem c5_student_midterm_event_date (now : Int) :
    classify_memory "student" "Midterm exam on 2026-03-05" none now =
      .ok ⟨"medium", some (now + 30 * usecPerDay), some "event", some (dtUsec 2026 3 5 9 0)⟩ ∧
    pyIsoformat (dtUsec 2026 3 5 9 0) = "2026-03-05T09:00:00+00:00" :=
  ⟨rfl, rfl⟩

/-- Role keyword hits: `true` iff some keyword list of the given role's
rules matches the lowered content. -/
def roleKeywordHit (role content_lower : String) : Bool :=
  (role == "parent" &&
    (kwAny parent_event_keywords content_lower || kwAny parent_ephemeral_keywords content_lower)) ||
  (role == "student" &&
    (kwAny student_exam_keywords content_lower || kwAny student_homework_keywords content_lower)) ||
  (role == "job" &&
    (kwAny job_applied_keywords content_lower || kwAny job_networking_keywords content_lower))

/-- C6.  Default classification: whenever no role-specific keyword rule
matches and the date extractor detects no event date, `classify_memory`
returns durability `"medium"`, `expires_at = now + 90 days`, and no
`type`/`event_date`. -/
theorem c6_default_classification (role content : String) (now : Int)
    (hdate : tryParseEventDate now content = .ok none)
    (hkw : roleKeywordHit role (pyLower content) = false) :
    classify_memory role content none now =
      .ok ⟨"medium", some (now + 90 * usecPerDay), none, none⟩ := by
  rw [classify_memory, hdate]
  by_cases hpar : role = "parent"
  · subst hpar
    rw [roleKeywordHit] at hkw
    simp only [Bool.or_eq_false_iff, Bool.and_eq_false_iff] at hkw
    have hfridge : kwAny parent_ephemeral_keywords (pyLower content) = false := by
      rcases hkw.1.1 with h | h
      · simp at h
      · exact h.2
    simp only [beq_self_eq_true, if_true, hdate]
    rw [classifyParent]
    simp [hfridge, classifyTail]
  · have hparb : (role == "parent") = false := beq_eq_false_iff_ne.mpr hpar
    rw [hparb]
    simp only [Bool.false_eq_true, if_false]
    by_cases hstu : role = "student"
    · subst hstu
      rw [roleKeywordHit] at hkw
      simp only [Bool.or_eq_false_iff, Bool.and_eq_false_iff] at hkw
      have hexam : kwAny student_exam_keywords (pyLower content) = false ∧
          kwAny student_homework_keywords (pyLower content) = false := by
        rcases hkw.1.2 with h | h
        · simp at h
        · exact h
      rw [classifyTail]
      simp [hexam.1, hexam.2]
    · have hstub : (role == "student") = false := beq_eq_false_iff_ne.mpr hstu
      by_cases hjob : role = "job"
      · subst hjob
        rw [roleKeywordHit] at hkw
        simp only [Bool.or_eq_false_iff, Bool.and_eq_false_iff] at hkw
        have happ : kwAny job_applied_keywords (pyLower content) = false ∧
            kwAny job_networking_keywords (pyLower content) = false := by
          rcases hkw.2 with h | h
          · simp at h
          · exact h
        rw [classifyTail]
        simp [happ.1, happ.2]
      · have hjobb : (role == "job") = false := beq_eq_false_iff_ne.mpr hjob
        rw [classifyTail]
        simp [hstub, hjobb]

theorem c6_default_classification_witness :
    classify_memory "fitness" "hello there" none 0 =
      .ok ⟨"medium", some (0 + 90 * usecPerDay), none, none⟩ :=
  c6_default_classification "fitness" "hello there" 0 (by rfl) (by rfl)

/-! ### Mode resolution (`backend/app.py`, `resolve_mode`, lines 191-261)

Built-in templates are checked before the user's custom rows.  The
`emoji` and `description` fields are carried through verbatim, never
branch, and are not mentioned by any claim; they are omitted from the
model.  `UserMode` rows store `default_tags` / `cross_mode_sources` as
JSON text columns: the model holds them post-`json.loads`, with `none`
covering a NULL or empty column and (like the source's `except`) any
undecodable text, all of which resolve to `[]`. -/

structure ModeTemplate where
  key : String
  name : String
  baseRole : String
  defaultTags : List String
  crossModeSources : List String
deriving DecidableEq, Repr

/-- The five built-in templates of `MODE_TEMPLATES`. -/
def MODE_TEMPLATES : List ModeTemplate :=
  [⟨"student", "Student Assistant", "student", ["student"], ["job"]⟩,
   ⟨"parent", "Parent / Family Planner", "parent", ["parent"], ["student"]⟩,
   ⟨"job", "Job-Hunt Assistant", "job", ["job"], ["student"]⟩,
   ⟨"fitness", "Fitness / Health", "fitness", ["fitness", "health"], []⟩,
   ⟨"fashion", "Fashion / Style", "fashion", ["fashion", "style"], []⟩]

/-- A `UserMode` database row of one user's custom mode. -/
structure UserModeRow where
  user_id : String
  key : String
  name : String
  base_role : Option String
  default_tags : Option (List String)
  cross_mode_sources : Option (List String)
deriving DecidableEq, Repr

/-- The configuration `resolve_mode` returns. -/
structure ModeConfig where
  modeKey : String
  baseRole : String
  label : String
  defaultTags : List String
  crossModeSources : List String
  isCustom : Bool
deriving DecidableEq, Repr

/-- Line 198: `mode_key = (mode_key or "student").strip()`. -/
def normalizeModeKey (mode_key : String) : String :=
  pyStrip (if mode_key == "" then "student" else mode_key)

/-- Model of `resolve_mode(user_id, mode_key)`; `userModes` is the
`user_modes` table.  The on-the-fly union for an empty stored
`crossModeSources` is built in Python as a `set` and returned as
`list(other)` in unspecified order; it is modelled as a deduplicated
list (templates first, then the user's rows) — only membership is
meaningful. -/
def resolve_mode (userModes : List UserModeRow) (user_id mode_key : String) : ModeConfig :=
  let mk := normalizeModeKey mode_key
  match MODE_TEMPLATES.find? (fun t => t.key == mk) with
  | some t => ⟨mk, t.baseRole, t.name, t.defaultTags, t.crossModeSources, false⟩
  | none =>
    match userModes.find? (fun um => um.user_id == user_id && um.key == mk) with
    | some custom =>
      let base := custom.base_role.getD mk
      let default_tags := custom.default_tags.getD []
      let stored_cross := custom.cross_mode_sources.getD []
      let cross :=
        if stored_cross.isEmpty then
          (((MODE_TEMPLATES.map (fun t => t.key)).filter (fun k => k != mk)) ++
            (((userModes.filter (fun um => um.user_id == user_id)).map
              (fun um => um.key)).filter (fun k => k != mk))).dedup
        else stored_cross
      ⟨mk, base, custom.name, default_tags, cross, true⟩
    | none => ⟨mk, "student", mk, [], [], true⟩

/-- A custom mode allowed by `create_mode` (which explicitly permits
template keys), with an empty stored `crossModeSources`. -/
def customFitnessC7 : UserModeRow :=
  ⟨"u1", "fitness", "My Fitness", none, none, none⟩

/-- C7, counterexample.  User `u1` owns a custom mode with key
`fitness` and empty stored `crossModeSources`; the claim asserts
`resolve` then returns the non-empty union of all other mode keys, but
`resolve_mode` matches the built-in `fitness` template first and returns
its `crossModeSources`, the empty list. -/
theorem c7_counterexample :
    customFitnessC7.cross_mode_sources.getD [] = [] ∧
    (resolve_mode [customFitnessC7] "u1" "fitness").crossModeSources = [] ∧
    (resolve_mode [customFitnessC7] "u1" "fitness").isCustom = false := by
  decide

/-- C7, amended.  For a custom mode whose (normalized) key matches no
built-in template, an empty stored `crossModeSources` resolves to the
set of all built-in template keys plus the user's other custom mode
keys, the mode's own key excluded — and that set is non-empty. -/
theorem c7_empty_cross_defaults_to_other_modes
    (userModes : List UserModeRow) (user_id mode_key : String) (custom : UserModeRow)
    (htemplate : MODE_TEMPLATES.find? (fun t => t.key == normalizeModeKey mode_key) = none)
    (hfound : userModes.find?
      (fun um => um.user_id == user_id && um.key == normalizeModeKey mode_key) = some custom)
    (hempty : custom.cross_mode_sources.getD [] = []) :
    (∀ k, k ∈ (resolve_mode userModes user_id mode_key).crossModeSources ↔
      (k ≠ normalizeModeKey mode_key ∧
        ((∃ t ∈ MODE_TEMPLATES, t.key = k) ∨
          (∃ um ∈ userModes, um.user_id = user_id ∧ um.key = k)))) ∧
    (resolve_mode userModes user_id mode_key).crossModeSources ≠ [] := by
  have hres : resolve_mode userModes user_id mode_key =
      ⟨normalizeModeKey mode_key, custom.base_role.getD (normalizeModeKey mode_key),
        custom.name, custom.default_tags.getD [],
        (((MODE_TEMPLATES.map (fun t => t.key)).filter
            (fun k => k != normalizeModeKey mode_key)) ++
          (((userModes.filter (fun um => um.user_id == user_id)).map
            (fun um => um.key)).filter (fun k => k != normalizeModeKey mode_key))).dedup,
        true⟩ := by
    rw [resolve_mode, htemplate, hfound]
    simp [hempty]
  rw [hres]
  have hmem : ∀ k, k ∈ (((MODE_TEMPLATES.map (fun t => t.key)).filter
        (fun k => k != normalizeModeKey mode_key)) ++
      (((userModes.filter (fun um => um.user_id == user_id)).map
        (fun um => um.key)).filter (fun k => k != normalizeModeKey mode_key))).dedup ↔
      (k ≠ normalizeModeKey mode_key ∧
        ((∃ t ∈ MODE_TEMPLATES, t.key = k) ∨
          (∃ um ∈ userModes, um.user_id = user_id ∧ um.key = k))) := by
    intro k
    simp only [List.mem_dedup, List.mem_append, List.mem_filter, List.mem_map,
      List.mem_filter, ne_eq, bne_iff_ne, decide_eq_true_eq, beq_iff_eq]
    aesop
  refine ⟨hmem, ?_⟩
  have hstudent : "student" ≠ normalizeModeKey mode_key := by
    intro h
    have := List.find?_eq_none.mp htemplate
      ⟨"student", "Student Assistant", "student", ["student"], ["job"]⟩ (by simp [ MODE_TEMPLATES])
    simp [← h] at this
  have : "student" ∈ (((MODE_TEMPLATES.map (fun t => t.key)).filter
        (fun k => k != normalizeModeKey mode_key)) ++
      (((userModes.filter (fun um => um.user_id == user_id)).map
        (fun um => um.key)).filter (fun k => k != normalizeModeKey mode_key))).dedup :=
    (hmem "student").mpr ⟨hstudent, Or.inl ⟨⟨"student", "Student Assistant", "student",
      ["student"], ["job"]⟩, by simp [ MODE_TEMPLATES], rfl⟩⟩
  exact List.ne_nil_of_mem this

def customGymC7 : UserModeRow :=
  ⟨"u1", "gym", "Gym", none, none, none⟩

theorem c7_empty_cross_defaults_to_other_modes_witness :
    "student" ∈ (resolve_mode [customGymC7] "u1" "gym").crossModeSources ∧
    (resolve_mode [customGymC7] "u1" "gym").crossModeSources ≠ [] := by
  have h := c7_empty_cross_defaults_to_other_modes [customGymC7] "u1" "gym" customGymC7
    (by decide) (by decide) (by decide)
  exact ⟨(h.1 "student").mpr (by decide), h.2⟩

def customFitnessC8 : UserModeRow :=
  ⟨"u8", "fitness", "My Custom Fitness", some "custom", some ["x"], some ["student"]⟩

/-- C8, counterexample.  User `u8` has instantiated a custom mode whose
key equals the built-in `fitness` template's key; the claim asserts the
custom row is the returnable answer for that user, but `resolve_mode`
checks templates first and answers with the template: `isCustom` is
`false` and none of the custom row's stored configuration (name, base
role, tags) is returned. -/
theorem c8_counterexample :
    (resolve_mode [customFitnessC8] "u8" "fitness").isCustom = false ∧
    (resolve_mode [customFitnessC8] "u8" "fitness").label = "Fitness / Health" ∧
    (resolve_mode [customFitnessC8] "u8" "fitness").label ≠ customFitnessC8.name ∧
    (resolve_mode [customFitnessC8] "u8" "fitness").baseRole ≠ "custom" ∧
    (resolve_mode [customFitnessC8] "u8" "fitness").defaultTags ≠ customFitnessC8.default_tags.getD [] := by
  decide

/-- C8, amended.  A custom mode may share a built-in key without
overwriting it — the row is stored independently — but resolution does
not keep both as returnable answers: for a key that matches a template,
`resolve_mode` returns the template configuration for every user and
every state of the user's custom rows (`isCustom = false`); the custom
row is never the result of `resolve_mode`. -/
theorem c8_template_shadows_custom
    (userModes : List UserModeRow) (user_id mode_key : String) (t : ModeTemplate)
    (ht : MODE_TEMPLATES.find? (fun tp => tp.key == normalizeModeKey mode_key) = some t) :
    resolve_mode userModes user_id mode_key =
      ⟨normalizeModeKey mode_key, t.baseRole, t.name, t.defaultTags, t.crossModeSources, false⟩ := by
  rw [resolve_mode, ht]

theorem c8_template_shadows_custom_witness :
    resolve_mode [customFitnessC8] "u8" "fitness" =
      ⟨normalizeModeKey "fitness", "fitness", "Fitness / Health", ["fitness", "health"], [], false⟩ :=
  c8_template_shadows_custom [customFitnessC8] "u8" "fitness"
    ⟨"fitness", "Fitness / Health", "fitness", ["fitness", "health"], []⟩ (by decide)

/-! ### Write-back deduplication (`backend/app.py`, lines 801-940)

`check_duplicate_memory` fetches up to five candidates from the store
(external; the list is a parameter here) and tests each against the
current user message.  The float test `similarity > 0.7` on
`|inter| / |words|` is modelled as the exact rational comparison
`10*|inter| > 7*|words|`; the two coincide for every word-set size
below about 10^15 (the double nearest 0.7 sits ~4.4e-17 below 0.7 and
rounding cannot bridge the gap at such denominators). -/

/-- Python `a or b or ''` on two optional strings (empty strings are
falsy). -/
def pyOrStr2 (a b : Option String) : String :=
  let bs := match b with
    | some t => t
    | none => ""
  match a with
  | some s => if s == "" then bs else s
  | none => bs

/-- The per-candidate duplicate test (lines 815-830): extract the
segment after the first `user asked:` (up to the next one, i.e.
`split('user asked:')[1]`), cut at the first `.`, strip, truncate to 150
characters, lower; then compare token sets and substrings. -/
def dupCheckOne (user_msg_lower : String) (user_msg_words : List String) (mem : Mem) : Bool :=
  let mem_text := pyLower (pyOrStr2 mem.text mem.content)
  if pyIn "user asked:" mem_text then
    let seg := upToNextChars "user asked:".data (dropThroughFirst "user asked:".data mem_text.data)
    let stored_msg := pyLower (strTake 150 (pyStrip ⟨seg.takeWhile (fun c => c != '.')⟩))
    let stored_words := (pySplit stored_msg).dedup
    if user_msg_words.length > 0 then
      decide (10 * ((user_msg_words.filter (fun w => stored_words.contains w)).length) >
          7 * user_msg_words.length) ||
        pyIn stored_msg user_msg_lower || pyIn user_msg_lower stored_msg
    else false
  else false

/-- Model of `check_duplicate_memory` over the candidate list the store
returned: the first candidate passing the duplicate test. -/
def check_duplicate_memory (user_message : String) (existing_memories : List Mem) : Option Mem :=
  let user_msg_lower := pyStrip (pyLower user_message)
  let user_msg_words := (pySplit user_msg_lower).dedup
  existing_memories.find? (dupCheckOne user_msg_lower user_msg_words)

/-- The summary text of a turn (line 842; the update path at line 874
rebuilds the identical string). -/
def summary_text (user_message : String) : String :=
  "User asked: " ++ strTake 150 user_message ++ ". Assistant provided guidance on this topic."

/-- The metadata dict `write_back_memories` builds for the summary
memory (lines 846-858); `type`/`event_date` are present only when the
classification set them, every other key is always present (possibly
with a null value, which is why the merge below always takes the new
`expires_at`). -/
def writeBackNewMeta (role base_role uid : String) (now : Int) (cls : Classification) : MemMeta :=
  ⟨some role, some base_role, some "chat", some uid, some (pyIsoformat now),
   some cls.durability, cls.expires_at.map pyIsoformat, cls.type,
   cls.event_date.map pyIsoformat⟩

/-- The merge `{**duplicate.metadata, **metadata}` specialised to the
key set of `writeBackNewMeta`: the new dict always carries every key
except `type`/`event_date`, so those two fall back to the stored value
and everything else is overwritten. -/
def mergeWriteBackMeta (old new : MemMeta) : MemMeta :=
  ⟨new.mode, new.base_role, new.source, new.userId, new.createdAt, new.durability,
   new.expires_at, new.type.orElse (fun _ => old.type),
   new.event_date.orElse (fun _ => old.event_date)⟩

/-- The store write `write_back_memories` decides on for the summary
memory: update-in-place of an existing row, or creation of a new one. -/
inductive WBAction where
  | update (id : String) (text : String) (meta : MemMeta)
  | create (text : String) (meta : MemMeta)
deriving DecidableEq, Repr

/-- Summary-memory decision of `write_back_memories` (lines 841-902):
classify the summary text, then either update the duplicate in place
(keeping its id, merging metadata) or create a new memory. -/
def write_back_summary_action (uid role base_role : String) (now : Int) (user_message : String)
    (candidates : List Mem) : Except Unit WBAction :=
  match classify_memory base_role (summary_text user_message) none now with
  | .error e => .error e
  | .ok cls =>
    let meta := writeBackNewMeta role base_role uid now cls
    match check_duplicate_memory user_message candidates with
    | some dup =>
      .ok (.update dup.id (summary_text user_message) (mergeWriteBackMeta dup.metadata meta))
    | none => .ok (.create (summary_text user_message) meta)

/-- The stored memory of the claim's concrete example. -/
def demoStoredMem : Mem :=
  ⟨"mem-1", some "User asked: plan my week for exams. Assistant provided guidance on this topic.",
   none, emptyMeta⟩

/-- C3.  Write-back deduplication: when some candidate passes the
duplicate test (token-set overlap above 0.7 of the new message's tokens,
or substring containment either way), `write_back_memories` updates the
first such memory in place — same id, metadata merged — and performs no
create.  The last two conjuncts check the claim's concrete example:
for stored text `user asked: plan my week for exams` and new message
`plan my week for exams now` the overlap is 5 of 6 tokens (> 0.7) and
the candidate is detected as a duplicate. -/
theorem c3_write_back_dedup_updates (uid role base_role : String) (now : Int)
    (user_message : String) (candidates : List Mem) (cls : Classification) (mem : Mem)
    (hcls : classify_memory base_role (summary_text user_message) none now = .ok cls)
    (hmem : mem ∈ candidates)
    (hdup : dupCheckOne (pyStrip (pyLower user_message))
      ((pySplit (pyStrip (pyLower user_message))).dedup) mem = true) :
    (∃ dup ∈ candidates,
      dupCheckOne (pyStrip (pyLower user_message))
        ((pySplit (pyStrip (pyLower user_message))).dedup) dup = true ∧
      write_back_summary_action uid role base_role now user_message candidates =
        .ok (.update dup.id (summary_text user_message)
          (mergeWriteBackMeta dup.metadata (writeBackNewMeta role base_role uid now cls)))) ∧
    (∀ txt meta, write_back_summary_action uid role base_role now user_message candidates ≠
      .ok (.create txt meta)) ∧
    10 * (((pySplit "plan my week for exams now").dedup.filter
        (fun w => ((pySplit "plan my week for exams").dedup).contains w)).length) >
      7 * ((pySplit "plan my week for exams now").dedup).length ∧
    dupCheckOne "plan my week for exams now" ((pySplit "plan my week for exams now").dedup)
      demoStoredMem = true := by
  have hfind : ∃ dup, check_duplicate_memory user_message candidates = some dup := by
    rw [check_duplicate_memory]
    have : (candidates.find? (dupCheckOne (pyStrip (pyLower user_message))
        ((pySplit (pyStrip (pyLower user_message))).dedup))).isSome := by
      rw [List.find?_isSome]
      exact ⟨mem, hmem, hdup⟩
    exact Option.isSome_iff_exists.mp this
  obtain ⟨dup, hdupeq⟩ := hfind
  have hdupmem : dup ∈ candidates := List.mem_of_find?_eq_some hdupeq
  have hduptest : dupCheckOne (pyStrip (pyLower user_message))
      ((pySplit (pyStrip (pyLower user_message))).dedup) dup = true :=
    List.find?_some hdupeq
  have haction : write_back_summary_action uid role base_role now user_message candidates =
      .ok (.update dup.id (summary_text user_message)
        (mergeWriteBackMeta dup.metadata (writeBackNewMeta role base_role uid now cls))) := by
    rw [write_back_summary_action, hcls, hdupeq]
  refine ⟨⟨dup, hdupmem, hduptest, haction⟩, ?_, by decide, by decide⟩
  intro txt meta hcreate
  rw [haction] at hcreate
  simp at hcreate

theorem c3_write_back_dedup_updates_witness :
    write_back_summary_action "u1" "student" "student" 0 "plan my week for exams now"
        [demoStoredMem] =
      .ok (.update "mem-1" (summary_text "plan my week for exams now")
        (mergeWriteBackMeta demoStoredMem.metadata
          (writeBackNewMeta "student" "student" "u1" 0
            ⟨"medium", some (0 + 30 * usecPerDay), none, none⟩))) := by
  have h := c3_write_back_dedup_updates "u1" "student" "student" 0
    "plan my week for exams now" [demoStoredMem]
    ⟨"medium", some (0 + 30 * usecPerDay), none, none⟩ demoStoredMem rfl
    (by decide) (by decide)
  obtain ⟨dup, hdupmem, _, heq⟩ := h.1
  have hd : dup = demoStoredMem := by simpa using hdupmem
  rw [hd] at heq
  exact heq

/-! ### C4: default tags on write-back creations

`write_back_memories` (app.py lines 893-897 and 933) builds
`extra_tags` from the mode's `defaultTags` and calls
`create_memory(user_id, text, metadata, role=role,
extra_container_tags=extra_tags)`.  But `create_memory`
(supermemory_client.py line 285) is declared as
`def create_memory(user_id, text, metadata, role=None)` — it has no
`extra_container_tags` parameter, so in Python the call raises
`TypeError: create_memory() got an unexpected keyword argument` before
any request is made, and the container tags `create_memory` would send
are in any case only the scope tags. -/

/-- The parameter names of `create_memory` as declared in
`supermemory_client.py`. -/
def create_memory_params : List String :=
  ["user_id", "text", "metadata", "role"]

/-- The keyword-argument names `write_back_memories` passes to
`create_memory` for both the summary and the fact memory. -/
def write_back_create_memory_kwargs : List String :=
  ["role", "extra_container_tags"]

/-- Python call semantics: a keyword argument whose name is not among
the callee's parameters raises `TypeError`. -/
def pyUnexpectedKeyword (params kwargs : List String) : Bool :=
  kwargs.any (fun k => !params.contains k)

/-- The `containerTags` `create_memory` computes (lines 288-290): the
userId scope tag and the `{userId}-{role}` mode scope tag, nothing
else. -/
def create_memory_container_tags (user_id : String) (role : Option String) : List String :=
  (if user_id == "default" then [] else [user_id]) ++
    (match role with
     | some r => [user_id ++ "-" ++ r]
     | none => [])

/-- C4 (code bug).  The write-back creation calls cannot succeed in
tagging memories with the mode's `defaultTags`: the call site passes the
keyword `extra_container_tags`, which `create_memory` does not accept
(`TypeError`), and the container tags `create_memory` itself constructs
for `role = some r` are exactly the two scope tags — never any
`defaultTags`-derived tag. -/
theorem c4_default_tags_never_applied :
    pyUnexpectedKeyword create_memory_params write_back_create_memory_kwargs = true ∧
    "extra_container_tags" ∉ create_memory_params ∧
    ∀ (uid r tag : String), tag ∈ create_memory_container_tags uid (some r) →
      tag = uid ∨ tag = uid ++ "-" ++ r := by
  refine ⟨by decide, by decide, ?_⟩
  intro uid r tag htag
  rw [create_memory_container_tags] at htag
  rcases List.mem_append.mp htag with h | h
  · by_cases hd : (uid == "default") = true
    · rw [if_pos hd] at h
      simp at h
    · rw [if_neg hd] at h
      exact Or.inl (by simpa using h)
  · exact Or.inr (by simpa using h)

theorem c4_default_tags_never_applied_witness :
    "u1" = "u1" ∨ "u1" = "u1" ++ "-" ++ "student" :=
  c4_default_tags_never_applied.2.2 "u1" "student" "u1" (by decide)

/-! ### Re-ranking (`backend/services/memory_orchestrator.py`,
`rerank_and_trim`, lines 159-191)

The score of a candidate is the number of distinct lower-cased,
whitespace-split query tokens occurring in its lowered text, plus one
when its `createdAt` is less than seven days old (the timestamp's civil
part is forced to UTC by `created.replace(tzinfo=utc)`, and
`timedelta.days` floors).  Python's `list.sort(key=..., reverse=True)`
is a stable descending sort by score — the unique permutation that is
descending on scores and keeps ties in input order — which is exactly
what `List.insertionSort` with the relation below computes. -/

def memScore (now : Int) (user_keywords : List String) (mem : Mem) : Nat :=
  let text := pyLower (mem.text.getD "")
  let base := (user_keywords.filter (fun k => pyIn k text)).length
  let boost : Nat :=
    match mem.metadata.createdAt with
    | some s =>
      if s == "" then 0
      else
        match fromisoformat (pyReplaceZ s) with
        | some dt => if Int.fdiv (now - dt.civil) usecPerDay < 7 then 1 else 0
        | none => 0
    | none => 0
  base + boost

def rerankRel (now : Int) (kws : List String) : Mem → Mem → Prop :=
  fun a b => memScore now kws b ≤ memScore now kws a

instance (now : Int) (kws : List String) : DecidableRel (rerankRel now kws) :=
  fun _ _ => inferInstanceAs (Decidable (_ ≤ _))

instance (now : Int) (kws : List String) : IsTotal Mem (rerankRel now kws) :=
  ⟨fun a b => (Nat.le_total (memScore now kws b) (memScore now kws a))⟩

instance (now : Int) (kws : List String) : IsTrans Mem (rerankRel now kws) :=
  ⟨fun _ _ _ hab hbc => Nat.le_trans hbc hab⟩

/-- Model of `rerank_and_trim(search_results, user_message, max_items)`
with the call time explicit (the source calls `datetime.now` while
scoring; one call time stands for the turn). -/
def rerank_and_trim (now : Int) (search_results : List Mem) (user_message : String)
    (max_items : Nat) : List Mem :=
  let user_keywords := (pySplit (pyLower user_message)).dedup
  (List.insertionSort (rerankRel now user_keywords) search_results).take max_items

theorem filter_orderedInsert_score (now : Int) (kws : List String) (s : Nat) (x : Mem)
    (l : List Mem) :
    (List.orderedInsert (rerankRel now kws) x l).filter (fun m => memScore now kws m == s) =
      if memScore now kws x == s then
        x :: l.filter (fun m => memScore now kws m == s)
      else l.filter (fun m => memScore now kws m == s) := by
  induction l with
  | nil =>
    rw [List.orderedInsert, List.filter_cons]
  | cons h t ih =>
    rw [List.orderedInsert]
    by_cases hr : rerankRel now kws x h
    · rw [if_pos hr, List.filter_cons]
    · rw [if_neg hr, List.filter_cons, List.filter_cons, ih]
      by_cases hpx : (memScore now kws x == s) = true
      · have hxs : memScore now kws x = s := by simpa using hpx
        have hlt : memScore now kws x < memScore now kws h := by
          rw [rerankRel] at hr
          omega
        have hph : (memScore now kws h == s) = false := by
          simp
          omega
        simp [hpx, hph]
      · have hpx' : (memScore now kws x == s) = false := by simpa using hpx
        simp [hpx']

theorem filter_insertionSort_score (now : Int) (kws : List String) (s : Nat) (l : List Mem) :
    (List.insertionSort (rerankRel now kws) l).filter (fun m => memScore now kws m == s) =
      l.filter (fun m => memScore now kws m == s) := by
  induction l with
  | nil => rfl
  | cons h t ih =>
    rw [List.insertionSort, filter_orderedInsert_score, List.filter_cons, ih]

/-- C9.  `rerank_and_trim` returns at most `max_items` candidates, in
descending score order, and the sort is stable: for every score class,
the output's members form a sublist of the input's members in input
order (so two equally-scored candidates keep their relative order). -/
theorem c9_rerank_stable_sort (now : Int) (search_results : List Mem) (user_message : String)
    (max_items : Nat) :
    (rerank_and_trim now search_results user_message max_items).length ≤ max_items ∧
    List.Pairwise
      (fun a b => memScore now ((pySplit (pyLower user_message)).dedup) b ≤
        memScore now ((pySplit (pyLower user_message)).dedup) a)
      (rerank_and_trim now search_results user_message max_items) ∧
    ∀ s, List.Sublist
      ((rerank_and_trim now search_results user_message max_items).filter
        (fun m => memScore now ((pySplit (pyLower user_message)).dedup) m == s))
      (search_results.filter
        (fun m => memScore now ((pySplit (pyLower user_message)).dedup) m == s)) := by
  refine ⟨List.length_take_le _ _, ?_, ?_⟩
  · have hsorted := List.sorted_insertionSort
      (rerankRel now ((pySplit (pyLower user_message)).dedup)) search_results
    exact List.Pairwise.sublist (List.take_sublist _ _) hsorted
  · intro s
    have hsub : List.Sublist
        ((rerank_and_trim now search_results user_message max_items).filter
          (fun m => memScore now ((pySplit (pyLower user_message)).dedup) m == s))
        ((List.insertionSort (rerankRel now ((pySplit (pyLower user_message)).dedup))
          search_results).filter
          (fun m => memScore now ((pySplit (pyLower user_message)).dedup) m == s)) :=
      List.Sublist.filter _ (List.take_sublist _ _)
    rw [filter_insertionSort_score] at hsub
    exact hsub
